import Mathlib

/-! Verification of the `healthCheck` Go library (package `healthcheck`,
file `healthCheck.go`): a shallow embedding of the per-server
check-and-classify pipeline, together with theorems about it.

Modelling conventions:
* Go maps (`ProcessMap`, `Commands`, `Thresholds`) become association
  lists; lookup is first-match, and a missing key yields the Go zero
  value where the source reads without an `ok` check.
* Shell command execution (`runCommand`), the SSH dial
  (`createSSHClient`) and the webhook POST (`http.Post`) are external
  effects; they enter the embedding as explicit oracle parameters
  (`Env`, `Conn`, and a `post` function).
* Iteration over the Go map `c.Commands` (`for label, cmdStr := range
  c.Commands`) has unspecified order at runtime; the order actually used
  by a run is passed in as an explicit `order : List (String × String)`,
  intended to be a permutation of the catalog entries.
* A Go runtime panic (index out of range while slicing metric output)
  is modelled by `Option.none`; `some` carries the normally produced
  text.
* `float64` values are modelled by exact rationals `ℚ`;
  `strconv.ParseFloat` is modelled on plain decimal numerals (no
  exponent, hex, inf or nan forms), returning `none` on failure, which
  the classifier coerces to `0` exactly as the source ignores the
  returned error. `fmt`'s `%.1f` is modelled as round-half-to-even on
  the exact rational.
-/

namespace HealthCheck

/-- Go struct `ServerConfig` (healthCheck.go lines 19-25). The source
field `Type` is a Lean keyword, hence the guillemets. -/
structure ServerConfig where
  IP : String
  Username : String
  Password : String
  Processes : List String
  «Type» : String
deriving DecidableEq, Repr

/-- Go struct `Config` (healthCheck.go lines 28-34), with the three maps
modelled as association lists. -/
structure Config where
  Servers : List ServerConfig
  SlackWebhookURL : String
  ProcessMap : List (String × List String)
  Commands : List (String × String)
  Thresholds : List (String × ℚ)

/-- Reading a Go `map[string]float64` without an `ok` check: a missing
key yields the zero value `0`. -/
def lookupQ (m : List (String × ℚ)) (k : String) : ℚ :=
  (m.lookup k).getD 0

/-- Reading a Go `map[string][]string` without an `ok` check: a missing
key yields the zero value `nil`. -/
def lookupProcs (m : List (String × List String)) (k : String) : List String :=
  (m.lookup k).getD []

/-- Overwrite-or-insert into an association list, matching Go map
assignment `m[k] = v` as observed through lookup. -/
def mapSet {α : Type} (m : List (String × α)) (k : String) (v : α) : List (String × α) :=
  if m.any (fun kv => kv.1 = k) then
    m.map (fun kv => if kv.1 = k then (k, v) else kv)
  else
    m ++ [(k, v)]

/-- Go `AddServer` (healthCheck.go lines 64-72): appends a new
`ServerConfig` to the fleet. -/
def AddServer (c : Config) (ip username password : String)
    (processes : List String) (serverType : String) : Config :=
  { c with Servers := c.Servers ++ [⟨ip, username, password, processes, serverType⟩] }

/-- Go `AddProcessType` (healthCheck.go lines 75-77). -/
def AddProcessType (c : Config) (typeName : String) (processes : List String) : Config :=
  { c with ProcessMap := mapSet c.ProcessMap typeName processes }

/-- Go `AddCommand` (healthCheck.go lines 80-82). -/
def AddCommand (c : Config) (name command : String) : Config :=
  { c with Commands := mapSet c.Commands name command }

/-- Go `SetThreshold` (healthCheck.go lines 85-87). -/
def SetThreshold (c : Config) (name : String) (value : ℚ) : Config :=
  { c with Thresholds := mapSet c.Thresholds name value }

/-- Go `NewDefaultConfig` (healthCheck.go lines 37-61), assuming the
Linux check passes (the non-Linux branch panics before any
configuration exists and is outside the model). -/
def NewDefaultConfig : Config where
  Servers := []
  SlackWebhookURL := ""
  ProcessMap := [("default", [])]
  Commands :=
    [("CPU Usage", "top -bn1 | grep \x27Cpu(s)\x27 | awk \x27\x7bprint $2 \"% user, \" $4 \"% system, \" $8 \"% idle\"\x7d\x27"),
     ("Memory Usage", "free -h | awk \x27NR==2\x7bprint $2 \" total, \" $3 \" used, \" $4 \" free\"\x7d\x27"),
     ("Disk Usage", "df -h | awk \x27$NF==\"/\"\x7bprint $2 \" total, \" $3 \" used, \" $5 \" used\"\x7d\x27"),
     ("Network Check", "ping -c 1 8.8.8.8 > /dev/null && echo \x27Network is OK\x27 || echo \x27Network Issue\x27")]
  Thresholds := [("CPU Idle", 20), ("Memory Used", 80), ("Disk Used", 90)]

/-- Go `getProcessesForServer` (healthCheck.go lines 107-122). -/
def getProcessesForServer (c : Config) (server : ServerConfig) : List String :=
  if server.Processes.length > 0 then server.Processes
  else if server.Type ≠ "" then
    match c.ProcessMap.lookup server.Type with
    | some processes => processes
    | none => lookupProcs c.ProcessMap "default"
  else lookupProcs c.ProcessMap "default"

/-! ### String-manipulation helpers

The Go source slices command output with `strings.Split`,
`strings.Fields`, `strings.TrimSuffix` and `strconv.ParseFloat`. These
are embedded below over `List Char`, faithful to the Go semantics on
the inputs the source feeds them (including the panics that indexing a
too-short slice would raise, which are made visible to callers by work
on explicit list patterns). -/

/-- Prepend a character to the first field of a field list, starting a
new field when there is none. -/
def consHead (c : Char) : List (List Char) → List (List Char)
  | [] => [[c]]
  | f :: fs => (c :: f) :: fs

/-- Go `strings.Split(s, ", ")`: splits around each leftmost-first
occurrence of the two-character separator. Always returns at least one
(possibly empty) part. -/
def splitCS : List Char → List (List Char)
  | [] => [[]]
  | [c] => [[c]]
  | c :: d :: cs =>
    if c = ',' ∧ d = ' ' then [] :: splitCS cs
    else consHead c (splitCS (d :: cs))

/-- Go `strings.Fields`: maximal runs of characters on which `p` is
false, where `p` recognises whitespace. -/
def fieldsL (p : Char → Bool) : List Char → List (List Char)
  | [] => []
  | [c] => if p c then [] else [[c]]
  | c :: d :: cs =>
    if p c then fieldsL p (d :: cs)
    else if p d then [c] :: fieldsL p cs
    else consHead c (fieldsL p (d :: cs))

/-- Go `strings.HasSuffix`. -/
def hasSuffixL (l suf : List Char) : Bool :=
  decide (suf.length ≤ l.length) && l.drop (l.length - suf.length) == suf

/-- Go `strings.TrimSuffix`: removes one trailing copy of `suf` when
present, otherwise returns the input unchanged. -/
def trimSuffixL (l suf : List Char) : List Char :=
  if hasSuffixL l suf then l.take (l.length - suf.length) else l

/-- Numeric value of a digit string, most significant digit first. -/
def digitsVal (l : List Char) : ℕ :=
  l.foldl (fun acc c => acc * 10 + (c.toNat - 48)) 0

/-- Unsigned part of the `strconv.ParseFloat` model: plain decimal
numerals `d+`, `d+.d*` or `.d+`. -/
def parseDecCore (l : List Char) : Option ℚ :=
  match l.splitOn '.' with
  | [intPart] =>
    if intPart ≠ [] ∧ intPart.all Char.isDigit then some ((digitsVal intPart : ℕ) : ℚ)
    else none
  | [intPart, fracPart] =>
    if (intPart ≠ [] ∨ fracPart ≠ []) ∧ intPart.all Char.isDigit ∧ fracPart.all Char.isDigit then
      some (((digitsVal intPart : ℕ) : ℚ) + ((digitsVal fracPart : ℕ) : ℚ) / (10 : ℚ) ^ fracPart.length)
    else none
  | _ => none

/-- Model of `strconv.ParseFloat` on plain decimal numerals with an
optional sign; `none` on malformed input. -/
def parseDec : List Char → Option ℚ
  | '-' :: rest => (parseDecCore rest).map Neg.neg
  | '+' :: rest => parseDecCore rest
  | l => parseDecCore l

/-- The source's use of `strconv.ParseFloat` with the error discarded
(`value, _ := strconv.ParseFloat(...)`): a malformed numeral silently
becomes `0`. -/
def parseFloatD (l : List Char) : ℚ :=
  (parseDec l).getD 0

/-- Round to the nearest integer, ties to the even integer, as `fmt`
does when printing with a fixed precision. -/
def roundHalfEven (q : ℚ) : ℤ :=
  let n := q.floor
  let r := q - (n : ℚ)
  if r < 1 / 2 then n
  else if 1 / 2 < r then n + 1
  else if n % 2 = 0 then n else n + 1

/-- Model of `fmt.Sprintf("%.1f", q)` on the exact rational `q`. -/
def formatFixed1 (q : ℚ) : String :=
  let n := roundHalfEven (q * 10)
  if n < 0 then "-" ++ toString ((-n) / 10) ++ "." ++ toString ((-n) % 10)
  else toString (n / 10) ++ "." ++ toString (n % 10)

/-! ### The per-command classifier

Go `checkStatus`'s `switch label` (healthCheck.go lines 202-236),
applied to the trimmed output of a successfully executed command.
`none` models the index-out-of-range panic that Go raises when the
sliced output has fewer parts than the source indexes
(`strings.Split(output, ", ")[2]`, `strings.Fields(...)[0]`,
`fields[2]`). -/
def classify (th : List (String × ℚ)) (label output : String) : Option String :=
  if label = "CPU Usage" then
    match splitCS output.data with
    | _ :: _ :: seg :: _ =>
      match fieldsL Char.isWhitespace seg with
      | tok :: _ =>
        let idlePercent := parseFloatD (trimSuffixL tok ['%'])
        if idlePercent ≤ lookupQ th "CPU Idle" then
          some ("⚠️ *" ++ label ++ ":* " ++ output ++ "\n")
        else
          some ("✅ *" ++ label ++ ":* " ++ output ++ "\n")
      | [] => none
    | _ => none
  else if label = "Memory Usage" then
    match fieldsL Char.isWhitespace output.data with
    | f0 :: _ :: f2 :: _ =>
      let used := parseFloatD (trimSuffixL f2 ['G', 'i'])
      let total := parseFloatD (trimSuffixL f0 ['G', 'i'])
      let usagePercent := used / total * 100
      if usagePercent ≥ lookupQ th "Memory Used" then
        some ("⚠️ *" ++ label ++ ":* " ++ output ++ " (" ++ formatFixed1 usagePercent ++ "% used)\n")
      else
        some ("✅ *" ++ label ++ ":* " ++ output ++ " (" ++ formatFixed1 usagePercent ++ "% used)\n")
    | _ => none
  else if label = "Disk Usage" then
    match splitCS output.data with
    | _ :: _ :: seg :: _ =>
      match fieldsL Char.isWhitespace seg with
      | tok :: _ =>
        let usedPercent := parseFloatD (trimSuffixL tok ['%'])
        if usedPercent ≥ lookupQ th "Disk Used" then
          some ("⚠️ *" ++ label ++ ":* " ++ output ++ "\n")
        else
          some ("✅ *" ++ label ++ ":* " ++ output ++ "\n")
      | [] => none
    | _ => none
  else
    some ("✅ *" ++ label ++ ":* " ++ output ++ "\n")

/-! ### The per-server pipeline -/

/-- Oracle for `runCommand` (healthCheck.go lines 149-175): for a given
server and command string, either the trimmed combined output or the
execution error text. -/
abbrev Env := ServerConfig → String → Except String String

/-- Oracle for the SSH dial inside `createSSHClient` (healthCheck.go
line 140): `some e` is a dial failure with error text `e`. -/
abbrev Conn := ServerConfig → Option String

/-- The `isLocal` test of `checkStatus` (healthCheck.go line 183) and
the loopback short-circuit of `createSSHClient` (line 127). -/
def isLocal (server : ServerConfig) : Bool :=
  server.IP == "localhost" || server.IP == "127.0.0.1"

/-- Outcome of `createSSHClient` (healthCheck.go lines 125-146): no
error for loopback addresses, otherwise the dial outcome wrapped in the
source's message. -/
def connectError (conn : Conn) (server : ServerConfig) : Option String :=
  if isLocal server then none
  else (conn server).map (fun e => "failed to connect via SSH: " ++ e)

/-- One iteration of the command loop (healthCheck.go lines 195-237)
for the catalog entry `lc = (label, command)`: an execution failure
becomes a ❌ line and the loop continues; otherwise the output is
classified (where `none` is the parsing panic). -/
def commandLine (c : Config) (server : ServerConfig) (env : Env) (lc : String × String) :
    Option String :=
  match env server lc.2 with
  | .error e =>
    some ("❌ *" ++ lc.1 ++ ":* Error executing command on " ++ server.IP ++ " - " ++ e ++ "\n")
  | .ok output => classify c.Thresholds lc.1 output

/-- The presence-probe command built for one process name
(healthCheck.go line 242). -/
def psCommand (p : String) : String :=
  "ps aux | grep -v grep | grep \x27" ++ p ++ "\x27"

/-- One process-check line (healthCheck.go lines 243-248): running iff
the probe succeeded with non-empty output. -/
def processLine (server : ServerConfig) (env : Env) (p : String) : String :=
  match env server (psCommand p) with
  | .error _ => "❌ *Process Check:* " ++ p ++ " is NOT running\n"
  | .ok output =>
    if output = "" then "❌ *Process Check:* " ++ p ++ " is NOT running\n"
    else "✅ *Process Check:* " ++ p ++ " is running\n"

/-- The process-check section of a fragment (healthCheck.go lines
240-252): one line per resolved process, or the single informational
line when none are resolved. -/
def processSection (c : Config) (server : ServerConfig) (env : Env) : List String :=
  let processes := getProcessesForServer c server
  if processes.length > 0 then processes.map (processLine server env)
  else ["ℹ️ *Process Check:* No processes specified for monitoring\n"]

/-- Sequential collection of per-item `Option` results: `none` (a
panic) at any item aborts the whole traversal, as a Go panic aborts the
enclosing loop. -/
def seqOpt {α β : Type} (f : α → Option β) : List α → Option (List β)
  | [] => some []
  | a :: as =>
    match f a with
    | none => none
    | some b => (seqOpt f as).map (fun bs => b :: bs)

/-- Go `checkStatus` (healthCheck.go lines 178-255) as the list of
lines it appends to `result`, in order: a connection failure produces
exactly the one ❌ line and returns; otherwise the command lines in
iteration order `order`, then the process section. -/
def checkLines (c : Config) (order : List (String × String)) (server : ServerConfig)
    (env : Env) (conn : Conn) : Option (List String) :=
  match connectError conn server with
  | some e => some ["❌ *SSH Connection:* " ++ e ++ "\n"]
  | none =>
    (seqOpt (commandLine c server env) order).map
      (fun cls => cls ++ processSection c server env)

/-- Concatenation of a list of strings, in order. -/
def concatAll : List String → String
  | [] => ""
  | s :: rest => s ++ concatAll rest

/-- Go `checkStatus`'s returned string: the concatenation of its
lines. -/
def checkStatus (c : Config) (order : List (String × String)) (server : ServerConfig)
    (env : Env) (conn : Conn) : Option String :=
  (checkLines c order server env conn).map concatAll

/-- The banner line `RunCheck` appends before each server's fragment
(healthCheck.go line 95). -/
def bannerLine (ip : String) : String :=
  "\n=== Checking status of server: " ++ ip ++ " ===\n"

/-- The server loop of `RunCheck` (healthCheck.go lines 93-97), with
`report` the accumulator. -/
def runCheckAux (c : Config) (order : List (String × String)) (env : Env) (conn : Conn) :
    List ServerConfig → String → Option String
  | [], report => some report
  | s :: rest, report =>
    match checkStatus c order s env conn with
    | none => none
    | some frag => runCheckAux c order env conn rest (report ++ bannerLine s.IP ++ frag)

/-- The report string returned by Go `RunCheck` (healthCheck.go lines
90-104). -/
def RunCheckReport (c : Config) (order : List (String × String)) (env : Env) (conn : Conn) :
    Option String :=
  runCheckAux c order env conn c.Servers ""

/-- Go `sendReportToSlack` (healthCheck.go lines 258-286), with the
HTTP POST as an oracle returning either a transport error or a status
code and body. Returns the operator-facing log lines; nothing is
returned to `RunCheck`. -/
def sendReportToSlack (url report now : String)
    (post : String → String → Except String (ℕ × String)) : List String :=
  let title := "Daily Health Check Report - " ++ now
  let payload := "*" ++ title ++ "*\n" ++ report
  match post url payload with
  | .error e => ["Error sending report to Slack: " ++ e]
  | .ok (status, body) =>
    if status ≠ 200 then ["Slack API error: " ++ toString status ++ " - " ++ body]
    else ["Report sent to Slack successfully!"]

/-- Go `RunCheck` (healthCheck.go lines 90-104) with its observable
effects: the returned report, the report handed to the notifier (when a
webhook URL is configured), and the notifier's log lines. -/
def RunCheckN (c : Config) (order : List (String × String)) (env : Env) (conn : Conn)
    (now : String) (post : String → String → Except String (ℕ × String)) :
    Option (String × Option String × List String) :=
  (RunCheckReport c order env conn).map (fun report =>
    if c.SlackWebhookURL = "" then (report, none, [])
    else (report, some report, sendReportToSlack c.SlackWebhookURL report now post))

/-! ### Support definitions used by the statements below -/

/-- The shape condition under which the three metric parsers index only
fields that exist: CPU/Disk need a third `", "`-separated segment
containing at least one whitespace-delimited token, Memory needs at
least three whitespace-delimited fields. Any other label never
slices. -/
def metricFieldsPresent (label output : String) : Bool :=
  if label = "CPU Usage" ∨ label = "Disk Usage" then
    match splitCS output.data with
    | _ :: _ :: seg :: _ => !(fieldsL Char.isWhitespace seg).isEmpty
    | _ => false
  else if label = "Memory Usage" then
    match fieldsL Char.isWhitespace output.data with
    | _ :: _ :: _ :: _ => true
    | _ => false
  else true

/-- A non-empty string containing no comma and no whitespace: the shape
of the numeric tokens the metric outputs embed. -/
abbrev goodNumeral (s : String) : Prop :=
  s.data ≠ [] ∧ ∀ c ∈ s.data, c ≠ ',' ∧ c.isWhitespace = false

/-- A two-command configuration for one local server, used to exhibit
the effect of the unspecified iteration order of the Go map
`c.Commands`. -/
def cfgTwoCmds : Config :=
  ⟨[⟨"localhost", "u", "p", [], ""⟩], "", [("default", [])], [("A", "a"), ("B", "b")], []⟩

/-- Oracle echoing each command string back as its output. -/
def envEcho : Env := fun _ cmd => Except.ok cmd

/-- Oracle under which every SSH dial succeeds. -/
def connOk : Conn := fun _ => none

/-- A configuration whose single Memory Usage command yields output
with only two whitespace-separated fields, so that `fields[2]` is out
of range. -/
def cfgShortMemory : Config :=
  ⟨[⟨"localhost", "u", "p", [], ""⟩], "https://hooks.slack.example/T0/B0/x",
   [("default", [])], [("Memory Usage", "free -h | awk \x27NR==2\x7bprint $2\x7d\x27")],
   [("Memory Used", 80)]⟩

/-- Oracle producing the two-field output that makes the memory parser
index out of range. -/
def envShortMemory : Env := fun _ _ => Except.ok "3.8Gi 2.1Gi"

/-! ### Helper lemmas about the string-slicing functions -/

theorem splitCS_no_comma : ∀ {l : List Char}, (∀ c ∈ l, c ≠ ',') → splitCS l = [l]
  | [], _ => rfl
  | [_], _ => rfl
  | c :: d :: cs, h => by
    have hc : c ≠ ',' := h c (by simp)
    have ih := splitCS_no_comma (l := d :: cs) (fun x hx => h x (by simp at hx ⊢; tauto))
    simp [splitCS, hc, ih, consHead]

theorem splitCS_append : ∀ {a : List Char} (b : List Char), (∀ c ∈ a, c ≠ ',') →
    splitCS (a ++ ',' :: ' ' :: b) = a :: splitCS b
  | [], b, _ => by simp [splitCS]
  | [x], b, h => by
    have hx : x ≠ ',' := h x (by simp)
    simp [splitCS, hx, consHead]
  | x :: y :: a', b, h => by
    have hx : x ≠ ',' := h x (by simp)
    have ih := splitCS_append (a := y :: a') b (fun c hc => h c (by simp at hc ⊢; tauto))
    simp only [List.cons_append] at ih ⊢
    simp [splitCS, hx, ih, consHead]

theorem fieldsL_no_sep (p : Char → Bool) :
    ∀ {a : List Char}, a ≠ [] → (∀ c ∈ a, p c = false) → fieldsL p a = [a]
  | [], h, _ => absurd rfl h
  | [c], _, h => by simp [fieldsL, h c (by simp)]
  | c :: d :: cs, _, h => by
    have hc := h c (by simp)
    have hd := h d (by simp)
    have ih := fieldsL_no_sep p (a := d :: cs) (by simp) (fun x hx => h x (by simp at hx ⊢; tauto))
    simp [fieldsL, hc, hd, ih, consHead]

theorem fieldsL_append (p : Char → Bool) (s : Char) (hs : p s = true) :
    ∀ {a : List Char} (b : List Char), a ≠ [] → (∀ c ∈ a, p c = false) →
      fieldsL p (a ++ s :: b) = a :: fieldsL p b
  | [], _, h, _ => absurd rfl h
  | [x], b, _, h => by
    have hx := h x (by simp)
    simp [fieldsL, hx, hs]
  | x :: y :: a', b, _, h => by
    have hx := h x (by simp)
    have hy := h y (by simp)
    have ih := fieldsL_append p s hs (a := y :: a') b (by simp)
      (fun c hc => h c (by simp at hc ⊢; tauto))
    simp only [List.cons_append] at ih ⊢
    simp [fieldsL, hx, hy, ih, consHead]

theorem good_append_noComma {s : String} (h : goodNumeral s) {lit : List Char}
    (hlit : ∀ c ∈ lit, c ≠ ',') : ∀ c ∈ s.data ++ lit, c ≠ ',' := by
  intro c hc
  rcases List.mem_append.mp hc with h1 | h1
  · exact (h.2 c h1).1
  · exact hlit c h1

theorem good_append_noWS {s : String} (h : goodNumeral s) {lit : List Char}
    (hlit : ∀ c ∈ lit, c.isWhitespace = false) :
    ∀ c ∈ s.data ++ lit, c.isWhitespace = false := by
  intro c hc
  rcases List.mem_append.mp hc with h1 | h1
  · exact (h.2 c h1).2
  · exact hlit c h1

theorem good_append_ne_nil {s : String} (h : goodNumeral s) (lit : List Char) :
    s.data ++ lit ≠ [] := by
  intro hcon
  exact h.1 (List.append_eq_nil.mp hcon).1

theorem trimSuffixL_append (a suf : List Char) : trimSuffixL (a ++ suf) suf = a := by
  have hlen : (a ++ suf).length - suf.length = a.length := by
    simp [List.length_append]
  have h1 : hasSuffixL (a ++ suf) suf = true := by
    simp [hasSuffixL, hlen, List.drop_left, List.length_append, Nat.le_add_left]
  simp [trimSuffixL, h1, hlen, List.take_left]

/-! ### Helper lemmas about the pipeline combinators -/

theorem seqOpt_cons {α β : Type} (f : α → Option β) (a : α) (as : List α) :
    seqOpt f (a :: as) = (f a).bind fun b => (seqOpt f as).map fun bs => b :: bs := by
  cases h : f a <;> simp [seqOpt, h]

theorem seqOpt_perm {α β : Type} {f : α → Option β} {l₁ l₂ : List α} (h : l₁.Perm l₂) :
    ∀ {r₁ : List β}, seqOpt f l₁ = some r₁ → ∃ r₂, seqOpt f l₂ = some r₂ ∧ r₁.Perm r₂ := by
  induction h with
  | nil =>
    intro r₁ h₁
    exact ⟨r₁, h₁, List.Perm.refl r₁⟩
  | cons x hp ih =>
    intro r₁ h₁
    rw [seqOpt_cons] at h₁
    rcases Option.bind_eq_some.mp h₁ with ⟨b, hb, hmap⟩
    rcases Option.map_eq_some'.mp hmap with ⟨bs, hbs, rfl⟩
    rcases ih hbs with ⟨bs₂, hbs₂, hperm⟩
    exact ⟨b :: bs₂, by rw [seqOpt_cons, hb, hbs₂]; rfl, hperm.cons b⟩
  | swap x y l =>
    intro r₁ h₁
    rw [seqOpt_cons] at h₁
    rcases Option.bind_eq_some.mp h₁ with ⟨by', hby, hmap⟩
    rcases Option.map_eq_some'.mp hmap with ⟨bs', hbs', rfl⟩
    rw [seqOpt_cons] at hbs'
    rcases Option.bind_eq_some.mp hbs' with ⟨bx, hbx, hmap₂⟩
    rcases Option.map_eq_some'.mp hmap₂ with ⟨bs, hbs, rfl⟩
    refine ⟨bx :: by' :: bs, ?_, List.Perm.swap bx by' bs⟩
    rw [seqOpt_cons, hbx, seqOpt_cons, hby, hbs]
    rfl
  | trans _ _ ih₁ ih₂ =>
    intro r₁ h₁
    rcases ih₁ h₁ with ⟨r₂, h₂, p₁⟩
    rcases ih₂ h₂ with ⟨r₃, h₃, p₂⟩
    exact ⟨r₃, h₃, p₁.trans p₂⟩

theorem runCheckAux_eq (c : Config) (order : List (String × String)) (env : Env) (conn : Conn) :
    ∀ (l : List ServerConfig) (acc : String),
      runCheckAux c order env conn l acc =
        (seqOpt (fun s => (checkStatus c order s env conn).map
          (fun frag => bannerLine s.IP ++ frag)) l).map (fun bs => acc ++ concatAll bs)
  | [], acc => by simp [runCheckAux, seqOpt, concatAll]
  | s :: rest, acc => by
    rw [runCheckAux]
    cases hcs : checkStatus c order s env conn with
    | none => simp [seqOpt_cons, hcs]
    | some frag =>
      show runCheckAux c order env conn rest (acc ++ bannerLine s.IP ++ frag) = _
      rw [runCheckAux_eq c order env conn rest (acc ++ bannerLine s.IP ++ frag)]
      cases hrest : seqOpt (fun s => (checkStatus c order s env conn).map
          (fun frag => bannerLine s.IP ++ frag)) rest with
      | none => simp [seqOpt_cons, hcs, hrest]
      | some bs => simp [seqOpt_cons, hcs, hrest, concatAll, String.append_assoc]

theorem runCheckAux_isSome (c : Config) (order : List (String × String)) (env : Env)
    (conn : Conn) :
    ∀ {l : List ServerConfig} (acc : String),
      (∀ s ∈ l, (checkStatus c order s env conn).isSome) →
      (runCheckAux c order env conn l acc).isSome
  | [], acc, _ => rfl
  | s :: rest, acc, h => by
    rw [runCheckAux]
    cases hcs : checkStatus c order s env conn with
    | none => exact absurd (hcs ▸ h s (by simp)) (by simp)
    | some frag =>
      exact runCheckAux_isSome c order env conn (acc ++ bannerLine s.IP ++ frag)
        (fun x hx => h x (by simp [hx]))

/-! ### C1: process-list resolution -/

/-- C1: for every server target, the resolved process list is the
target's own explicit `Processes` when that list is non-empty;
otherwise the `ProcessMap` entry keyed by the target's `Type` when
`Type` is set and such an entry exists; otherwise the `ProcessMap`
`"default"` entry (possibly empty, and `[]` when even that entry is
absent, matching the Go zero value). -/
theorem process_list_resolution (c : Config) (s : ServerConfig) :
    (s.Processes ≠ [] → getProcessesForServer c s = s.Processes) ∧
    (s.Processes = [] → s.Type ≠ "" → ∀ ps, c.ProcessMap.lookup s.Type = some ps →
      getProcessesForServer c s = ps) ∧
    (s.Processes = [] → (s.Type = "" ∨ c.ProcessMap.lookup s.Type = none) →
      getProcessesForServer c s = lookupProcs c.ProcessMap "default") := by
  refine ⟨?_, ?_, ?_⟩
  · intro h
    simp [getProcessesForServer, List.length_pos.mpr h]
  · intro h0 ht ps hps
    simp [getProcessesForServer, h0, ht, hps]
  · intro h0 hd
    rcases hd with ht | hnone
    · simp [getProcessesForServer, h0, ht]
    · by_cases ht : s.Type = ""
      · simp [getProcessesForServer, h0, ht]
      · simp [getProcessesForServer, h0, ht, hnone]

/-- Closed instance of C1: a server with no explicit processes and type
tag "web" resolves to the "web" entry of the process map. -/
theorem process_list_resolution_witness :
    getProcessesForServer ⟨[], "", [("web", ["nginx"]), ("default", [])], [], []⟩
      ⟨"10.0.0.1", "u", "p", [], "web"⟩ = ["nginx"] :=
  (process_list_resolution ⟨[], "", [("web", ["nginx"]), ("default", [])], [], []⟩
    ⟨"10.0.0.1", "u", "p", [], "web"⟩).2.1 rfl (by decide) ["nginx"] rfl

/-! ### C4: connection failure short-circuits -/

/-- C4: when the SSH connection to a non-local server cannot be
established, the server's fragment is exactly the single ❌
connection-failure line — no command-classification lines and no
process-check lines follow. -/
theorem connection_failure_short_circuits (c : Config) (order : List (String × String))
    (s : ServerConfig) (env : Env) (conn : Conn)
    (hl : isLocal s = false) (e : String) (he : conn s = some e) :
    checkLines c order s env conn =
      some ["❌ *SSH Connection:* " ++ ("failed to connect via SSH: " ++ e) ++ "\n"] ∧
    checkStatus c order s env conn =
      some ("❌ *SSH Connection:* " ++ ("failed to connect via SSH: " ++ e) ++ "\n") := by
  have hc : connectError conn s = some ("failed to connect via SSH: " ++ e) := by
    simp [connectError, hl, he]
  refine ⟨by simp [checkLines, hc], ?_⟩
  simp [checkStatus, checkLines, hc, concatAll, String.append_empty]

/-- Closed instance of C4: a timed-out dial to 10.0.0.9 produces the
one-line fragment. -/
theorem connection_failure_short_circuits_witness :
    checkLines ⟨[], "", [], [], []⟩ [("CPU Usage", "top")] ⟨"10.0.0.9", "u", "p", [], ""⟩
        (fun _ _ => Except.ok "out") (fun _ => some "dial timeout") =
      some ["❌ *SSH Connection:* " ++ ("failed to connect via SSH: " ++ "dial timeout") ++ "\n"] ∧
    checkStatus ⟨[], "", [], [], []⟩ [("CPU Usage", "top")] ⟨"10.0.0.9", "u", "p", [], ""⟩
        (fun _ _ => Except.ok "out") (fun _ => some "dial timeout") =
      some ("❌ *SSH Connection:* " ++ ("failed to connect via SSH: " ++ "dial timeout") ++ "\n") :=
  connection_failure_short_circuits ⟨[], "", [], [], []⟩ [("CPU Usage", "top")]
    ⟨"10.0.0.9", "u", "p", [], ""⟩ (fun _ _ => Except.ok "out") (fun _ => some "dial timeout")
    rfl "dial timeout" rfl

/-! ### C8: fleet report order -/

/-- C8: the fleet report is the ordered concatenation of per-server
blocks — a banner line naming the server's address followed by that
server's fragment — in the order of the `Servers` sequence, which
`AddServer` extends at the end; consequently permuting the `AddServer`
calls permutes the report blocks identically, as the final conjunct
makes explicit at the block level. -/
theorem report_is_ordered_concatenation (c : Config) (order : List (String × String))
    (env : Env) (conn : Conn) :
    RunCheckReport c order env conn =
      (seqOpt (fun s => (checkStatus c order s env conn).map
        (fun frag => bannerLine s.IP ++ frag)) c.Servers).map concatAll ∧
    (∀ ip username password processes serverType,
      (AddServer c ip username password processes serverType).Servers =
        c.Servers ++ [⟨ip, username, password, processes, serverType⟩]) ∧
    (∀ servers₁ servers₂ : List ServerConfig, servers₁.Perm servers₂ →
      (servers₁.map (fun s => (checkStatus c order s env conn).map
        (fun frag => bannerLine s.IP ++ frag))).Perm
      (servers₂.map (fun s => (checkStatus c order s env conn).map
        (fun frag => bannerLine s.IP ++ frag)))) := by
  refine ⟨?_, fun _ _ _ _ _ => rfl, fun _ _ h => h.map _⟩
  rw [RunCheckReport, runCheckAux_eq]
  cases seqOpt (fun s => (checkStatus c order s env conn).map
      (fun frag => bannerLine s.IP ++ frag)) c.Servers with
  | none => rfl
  | some bs => simp [String.empty_append]

/-- Closed instance of C8 at a two-server fleet. -/
theorem report_is_ordered_concatenation_witness :
    RunCheckReport ⟨[⟨"localhost", "u", "p", [], ""⟩, ⟨"h2", "u", "p", [], ""⟩], "",
        [("default", [])], [], []⟩ [] envEcho connOk =
      (seqOpt (fun s => (checkStatus ⟨[⟨"localhost", "u", "p", [], ""⟩, ⟨"h2", "u", "p", [], ""⟩],
        "", [("default", [])], [], []⟩ [] s envEcho connOk).map
        (fun frag => bannerLine s.IP ++ frag))
        [⟨"localhost", "u", "p", [], ""⟩, ⟨"h2", "u", "p", [], ""⟩]).map concatAll :=
  (report_is_ordered_concatenation ⟨[⟨"localhost", "u", "p", [], ""⟩, ⟨"h2", "u", "p", [], ""⟩],
    "", [("default", [])], [], []⟩ [] envEcho connOk).1

/-! ### C9: process presence lines -/

/-- C9: under an established connection, the fragment ends with the
process section; each resolved process yields a ✅ running line exactly
when the presence probe succeeded with non-empty output and a ❌ NOT
running line when it failed or returned empty output; an empty resolved
list yields exactly the single ℹ️ informational line, never nothing. -/
theorem process_presence_lines (c : Config) (order : List (String × String))
    (s : ServerConfig) (env : Env) (conn : Conn)
    (hconn : connectError conn s = none) (cls : List String)
    (hcmds : seqOpt (commandLine c s env) order = some cls) :
    checkLines c order s env conn = some (cls ++ processSection c s env) ∧
    (getProcessesForServer c s = [] →
      processSection c s env = ["ℹ️ *Process Check:* No processes specified for monitoring\n"]) ∧
    (getProcessesForServer c s ≠ [] →
      processSection c s env = (getProcessesForServer c s).map (processLine s env)) ∧
    (∀ p : String,
      (∀ e, env s (psCommand p) = .error e →
        processLine s env p = "❌ *Process Check:* " ++ p ++ " is NOT running\n") ∧
      (env s (psCommand p) = .ok "" →
        processLine s env p = "❌ *Process Check:* " ++ p ++ " is NOT running\n") ∧
      (∀ o, env s (psCommand p) = .ok o → o ≠ "" →
        processLine s env p = "✅ *Process Check:* " ++ p ++ " is running\n")) := by
  refine ⟨by simp [checkLines, hconn, hcmds], ?_, ?_, ?_⟩
  · intro h
    simp [processSection, h]
  · intro h
    simp [processSection, List.length_pos.mpr h]
  · intro p
    refine ⟨?_, ?_, ?_⟩
    · intro e he
      simp [processLine, he]
    · intro he
      simp [processLine, he]
    · intro o ho hne
      simp [processLine, ho, hne]

/-- Closed instance of C9: a running nginx probe yields the ✅ line and
the fragment is the command lines followed by the process section. -/
theorem process_presence_lines_witness :
    checkLines ⟨[], "", [("default", ["nginx"])], [], []⟩ [] ⟨"localhost", "u", "p", [], ""⟩
        (fun _ _ => Except.ok "root 1 nginx") connOk =
      some ([] ++ processSection ⟨[], "", [("default", ["nginx"])], [], []⟩
        ⟨"localhost", "u", "p", [], ""⟩ (fun _ _ => Except.ok "root 1 nginx")) ∧
    processLine ⟨"localhost", "u", "p", [], ""⟩ (fun _ _ => Except.ok "root 1 nginx") "nginx" =
      "✅ *Process Check:* " ++ "nginx" ++ " is running\n" :=
  ⟨(process_presence_lines ⟨[], "", [("default", ["nginx"])], [], []⟩ []
      ⟨"localhost", "u", "p", [], ""⟩ (fun _ _ => Except.ok "root 1 nginx") connOk rfl [] rfl).1,
   ((process_presence_lines ⟨[], "", [("default", ["nginx"])], [], []⟩ []
      ⟨"localhost", "u", "p", [], ""⟩ (fun _ _ => Except.ok "root 1 nginx") connOk rfl [] rfl).2.2.2
      "nginx").2.2 "root 1 nginx" rfl (by decide)⟩

/-! ### C10: empty fleet -/

/-- C10: with an empty fleet, `RunCheck` returns the empty report — no
banner lines and no fragments — and the empty report is still handed to
the notifier exactly when a webhook URL is configured. -/
theorem empty_fleet_report (c : Config) (order : List (String × String)) (env : Env)
    (conn : Conn) (now : String) (post : String → String → Except String (ℕ × String))
    (h : c.Servers = []) :
    RunCheckReport c order env conn = some "" ∧
    (RunCheckN c order env conn now post).map (fun r => (r.1, r.2.1)) =
      some ("", if c.SlackWebhookURL = "" then none else some "") := by
  have h1 : RunCheckReport c order env conn = some "" := by
    rw [RunCheckReport, h]; rfl
  refine ⟨h1, ?_⟩
  rw [RunCheckN, h1]
  by_cases hu : c.SlackWebhookURL = "" <;> simp [hu]

/-- Closed instance of C10 with a configured webhook URL: the empty
report is handed to the notifier. -/
theorem empty_fleet_report_witness :
    RunCheckReport ⟨[], "https://hooks.example/w", [("default", [])], [], []⟩ [] envEcho connOk =
      some "" ∧
    (RunCheckN ⟨[], "https://hooks.example/w", [("default", [])], [], []⟩ [] envEcho connOk
        "2026-10-11 00:00:00" (fun _ _ => Except.ok (200, "ok"))).map (fun r => (r.1, r.2.1)) =
      some ("", if ("https://hooks.example/w" : String) = "" then none else some "") :=
  empty_fleet_report ⟨[], "https://hooks.example/w", [("default", [])], [], []⟩ [] envEcho connOk
    "2026-10-11 00:00:00" (fun _ _ => Except.ok (200, "ok")) rfl

/-! ### C2: behaviour on malformed metric output -/

/-- C2 counterexample: on the malformed CPU Usage output "garbage"
(fewer than three ", "-separated segments) classification does raise —
`strings.Split(output, ", ")[2]` indexes out of range, modelled by
`none` — so no report line is produced, contradicting the claim that
malformed output with fewer fields than expected never raises. -/
theorem malformed_cpu_output_panics :
    classify NewDefaultConfig.Thresholds "CPU Usage" "garbage" = none := rfl

/-- C2 amended: classification never raises provided the indexed fields
are present (`metricFieldsPresent`): CPU and Disk need a third
", "-separated segment with a leading token, Memory needs three
whitespace-separated fields, and all other labels are total. In that
case a line is always produced, and a numeric token that fails to parse
is coerced to the zero value, as the final conjunct shows for the CPU
metric. Outputs missing the indexed field make the classifier index out
of range instead. -/
theorem classification_total_when_fields_present (th : List (String × ℚ))
    (label output : String) :
    ((label = "CPU Usage" ∨ label = "Disk Usage") →
      ∀ a b seg rest, splitCS output.data = a :: b :: seg :: rest →
      ∀ tok toks, fieldsL Char.isWhitespace seg = tok :: toks →
      (classify th label output).isSome) ∧
    (label = "Memory Usage" →
      ∀ f0 f1 f2 rest, fieldsL Char.isWhitespace output.data = f0 :: f1 :: f2 :: rest →
      (classify th label output).isSome) ∧
    (label ≠ "CPU Usage" → label ≠ "Memory Usage" → label ≠ "Disk Usage" →
      (classify th label output).isSome) ∧
    (label = "CPU Usage" →
      ∀ a b seg rest, splitCS output.data = a :: b :: seg :: rest →
      ∀ tok toks, fieldsL Char.isWhitespace seg = tok :: toks →
      parseDec (trimSuffixL tok ['%']) = none →
      classify th label output =
        if (0 : ℚ) ≤ lookupQ th "CPU Idle" then
          some ("⚠️ *" ++ label ++ ":* " ++ output ++ "\n")
        else
          some ("✅ *" ++ label ++ ":* " ++ output ++ "\n")) := by
  refine ⟨?_, ?_, ?_, ?_⟩
  · rintro (h1 | h1) a b seg rest hsp tok toks hfld <;> subst h1 <;>
      simp [classify, hsp, hfld] <;> split <;> simp
  · intro h1 f0 f1 f2 rest hfld
    subst h1
    simp [classify, hfld]
    split <;> simp
  · intro h1 h2 h3
    simp [classify, h1, h2, h3]
  · intro h1 a b seg rest hsp tok toks hfld hparse
    subst h1
    simp [classify, hsp, hfld, parseFloatD, hparse]

/-- Closed instance of the amended C2: the output "x, y, z" has the
required fields but an unparseable numeric token, and classification
still produces a line rather than raising. -/
theorem classification_total_when_fields_present_witness :
    (classify NewDefaultConfig.Thresholds "CPU Usage" "x, y, z").isSome :=
  (classification_total_when_fields_present NewDefaultConfig.Thresholds "CPU Usage" "x, y, z").1
    (Or.inl rfl) ['x'] ['y'] ['z'] [] rfl ['z'] [] rfl

/-! ### C3: determinism across runs -/

/-- C3 counterexample: two runs over the same configuration with
identical command outputs, whose command-map iteration orders are both
permutations of the catalog (as Go's unspecified map range order
allows), produce different report strings — the concatenated report
text does not reproduce as claimed. -/
theorem map_iteration_order_changes_report :
    List.Perm [("B", "b"), ("A", "a")] cfgTwoCmds.Commands ∧
    RunCheckReport cfgTwoCmds cfgTwoCmds.Commands envEcho connOk ≠
      RunCheckReport cfgTwoCmds [("B", "b"), ("A", "a")] envEcho connOk := by
  constructor
  · exact List.Perm.swap ("A", "a") ("B", "b") []
  · decide

/-- C3 amended: with the same command outputs, the per-server fragments
of two runs agree up to the iteration order of the command map: if one
run's fragment exists, so does the other's, with the same multiset of
lines (command lines permuted, connection and process lines unchanged);
two runs using the same iteration order produce identical fragments. -/
theorem fragments_agree_up_to_command_order (c : Config)
    (order₁ order₂ : List (String × String)) (s : ServerConfig) (env : Env) (conn : Conn)
    (h : order₁.Perm order₂) {r₁ : List String}
    (h₁ : checkLines c order₁ s env conn = some r₁) :
    ∃ r₂, checkLines c order₂ s env conn = some r₂ ∧ r₁.Perm r₂ := by
  rw [checkLines] at h₁ ⊢
  cases hce : connectError conn s with
  | some e =>
    simp only [hce] at h₁ ⊢
    exact ⟨r₁, h₁, .refl r₁⟩
  | none =>
    simp only [hce] at h₁ ⊢
    rcases Option.map_eq_some'.mp h₁ with ⟨cls₁, hcls₁, rfl⟩
    rcases seqOpt_perm h hcls₁ with ⟨cls₂, hcls₂, hperm⟩
    exact ⟨cls₂ ++ processSection c s env, by rw [hcls₂]; rfl, hperm.append_right _⟩

/-- Closed instance of the amended C3 at the two-command
configuration. -/
theorem fragments_agree_up_to_command_order_witness :
    ∃ r₂, checkLines cfgTwoCmds [("B", "b"), ("A", "a")] ⟨"localhost", "u", "p", [], ""⟩
        envEcho connOk = some r₂ ∧
      List.Perm ["✅ *A:* " ++ "a" ++ "\n", "✅ *B:* " ++ "b" ++ "\n",
        "ℹ️ *Process Check:* No processes specified for monitoring\n"] r₂ :=
  fragments_agree_up_to_command_order cfgTwoCmds cfgTwoCmds.Commands [("B", "b"), ("A", "a")]
    ⟨"localhost", "u", "p", [], ""⟩ envEcho connOk
    (List.Perm.swap ("B", "b") ("A", "a") []) (by decide)

/-! ### C5: RunCheck totality and notification non-interference -/

/-- C5 counterexample: a configuration whose Memory Usage command
yields two-field output makes `RunCheck` panic (`fields[2]` out of
range) instead of returning a best-effort report string, contradicting
the claim that `RunCheck` never fails for every configuration. -/
theorem runcheck_can_panic :
    RunCheckN cfgShortMemory cfgShortMemory.Commands envShortMemory connOk
      "2026-10-11 00:00:00" (fun _ _ => Except.ok (200, "ok")) = none := by decide

/-- C5 amended: whenever every server's checks complete without a
parsing panic — in particular when every server is unreachable, since a
connection failure short-circuits before any parsing — `RunCheck`
returns a best-effort report string, and the notification delivery
outcome (transport error or non-2xx response, carried by `post`) never
propagates to the caller and never alters the returned report. -/
theorem report_independent_of_delivery (c : Config) (order : List (String × String))
    (env : Env) (conn : Conn)
    (h : ∀ s ∈ c.Servers, (checkStatus c order s env conn).isSome) :
    ∃ r : String, RunCheckReport c order env conn = some r ∧
      ∀ now post, (RunCheckN c order env conn now post).map (fun x => x.1) = some r := by
  have h1 : (RunCheckReport c order env conn).isSome :=
    runCheckAux_isSome c order env conn (l := c.Servers) "" h
  rcases Option.isSome_iff_exists.mp h1 with ⟨r, hr⟩
  refine ⟨r, hr, fun now post => ?_⟩
  rw [RunCheckN, hr]
  by_cases hu : c.SlackWebhookURL = "" <;> simp [hu]

/-- Closed instance of the amended C5: with one unreachable server, the
report exists and is unaffected by the delivery outcome. -/
theorem report_independent_of_delivery_witness :
    ∃ r : String, RunCheckReport ⟨[⟨"10.0.0.7", "u", "p", [], ""⟩], "https://hooks.example/w",
        [("default", [])], [], []⟩ [] envEcho (fun _ => some "connection refused") = some r ∧
      ∀ now post, (RunCheckN ⟨[⟨"10.0.0.7", "u", "p", [], ""⟩], "https://hooks.example/w",
        [("default", [])], [], []⟩ [] envEcho (fun _ => some "connection refused") now post).map
        (fun x => x.1) = some r :=
  report_independent_of_delivery ⟨[⟨"10.0.0.7", "u", "p", [], ""⟩], "https://hooks.example/w",
    [("default", [])], [], []⟩ [] envEcho (fun _ => some "connection refused") (by decide)

/-! ### C6: CPU classification -/

/-- C6: for every CPU Usage output of the three-field comma-space form
"(u)% user, (s)% system, (i)% idle" with numeric tokens, the report
line is WARN (⚠️) exactly when the parsed idle percent is less than or
equal to the "CPU Idle" threshold, and OK (✅) otherwise. -/
theorem cpu_warn_iff_idle_le_threshold (th : List (String × ℚ)) (u s i : String) (q : ℚ)
    (hu : goodNumeral u) (hs : goodNumeral s) (hi : goodNumeral i)
    (hq : parseDec i.data = some q) :
    classify th "CPU Usage" (u ++ "% user, " ++ s ++ "% system, " ++ i ++ "% idle") =
      if q ≤ lookupQ th "CPU Idle" then
        some ("⚠️ *" ++ "CPU Usage" ++ ":* " ++
          (u ++ "% user, " ++ s ++ "% system, " ++ i ++ "% idle") ++ "\n")
      else
        some ("✅ *" ++ "CPU Usage" ++ ":* " ++
          (u ++ "% user, " ++ s ++ "% system, " ++ i ++ "% idle") ++ "\n") := by
  have hdata : (u ++ "% user, " ++ s ++ "% system, " ++ i ++ "% idle").data
      = (u.data ++ ['%', ' ', 'u', 's', 'e', 'r']) ++ ',' :: ' ' ::
        ((s.data ++ ['%', ' ', 's', 'y', 's', 't', 'e', 'm']) ++ ',' :: ' ' ::
         (i.data ++ ['%', ' ', 'i', 'd', 'l', 'e'])) := by
    simp [String.data_append]
  have hu' : ∀ c ∈ u.data ++ ['%', ' ', 'u', 's', 'e', 'r'], c ≠ ',' :=
    good_append_noComma hu (by decide)
  have hs' : ∀ c ∈ s.data ++ ['%', ' ', 's', 'y', 's', 't', 'e', 'm'], c ≠ ',' :=
    good_append_noComma hs (by decide)
  have hi' : ∀ c ∈ i.data ++ ['%', ' ', 'i', 'd', 'l', 'e'], c ≠ ',' :=
    good_append_noComma hi (by decide)
  have hsp : splitCS (u ++ "% user, " ++ s ++ "% system, " ++ i ++ "% idle").data
      = (u.data ++ ['%', ' ', 'u', 's', 'e', 'r']) ::
        (s.data ++ ['%', ' ', 's', 'y', 's', 't', 'e', 'm']) ::
        [i.data ++ ['%', ' ', 'i', 'd', 'l', 'e']] := by
    rw [hdata, splitCS_append _ hu', splitCS_append _ hs', splitCS_no_comma hi']
  have hseg : i.data ++ ['%', ' ', 'i', 'd', 'l', 'e'] =
      (i.data ++ ['%']) ++ ' ' :: ['i', 'd', 'l', 'e'] := by simp
  have hfld : fieldsL Char.isWhitespace (i.data ++ ['%', ' ', 'i', 'd', 'l', 'e'])
      = (i.data ++ ['%']) :: fieldsL Char.isWhitespace ['i', 'd', 'l', 'e'] := by
    rw [hseg]
    exact fieldsL_append Char.isWhitespace ' ' rfl _ (good_append_ne_nil hi _)
      (good_append_noWS hi (by decide))
  simp only [classify, eq_self_iff_true, if_true, hsp, hfld]
  rw [trimSuffixL_append, parseFloatD, hq, Option.getD_some]

/-- Closed instance of C6 at the spec's example: 92% idle against the
default 20.0 threshold classifies OK. -/
theorem cpu_warn_iff_idle_le_threshold_witness :
    classify NewDefaultConfig.Thresholds "CPU Usage"
        ("5" ++ "% user, " ++ "3" ++ "% system, " ++ "92" ++ "% idle") =
      if (92 : ℚ) ≤ lookupQ NewDefaultConfig.Thresholds "CPU Idle" then
        some ("⚠️ *" ++ "CPU Usage" ++ ":* " ++
          ("5" ++ "% user, " ++ "3" ++ "% system, " ++ "92" ++ "% idle") ++ "\n")
      else
        some ("✅ *" ++ "CPU Usage" ++ ":* " ++
          ("5" ++ "% user, " ++ "3" ++ "% system, " ++ "92" ++ "% idle") ++ "\n") :=
  cpu_warn_iff_idle_le_threshold NewDefaultConfig.Thresholds "5" "3" "92" 92
    (by decide) (by decide) (by decide) (by decide)

/-! ### C7: memory classification -/

/-- C7: for every Memory Usage output of the form
"(T)Gi total, (U)Gi used, (F)Gi free" with numeric tokens and a
non-zero total, the report line embeds the usage percentage 100*U/T
rendered to one decimal place, and the line is WARN (⚠️) exactly when
that percentage is greater than or equal to the "Memory Used"
threshold, and OK (✅) otherwise. The total is required non-zero since
the source's floating-point division of a non-zero used value by a zero
total would produce an infinite percentage, outside the rational
model. -/
theorem memory_percent_and_warn_iff (th : List (String × ℚ)) (t u f : String) (T U : ℚ)
    (ht : goodNumeral t) (hu : goodNumeral u) (hf : goodNumeral f)
    (hT : parseDec t.data = some T) (hU : parseDec u.data = some U) (hT0 : T ≠ 0) :
    classify th "Memory Usage" (t ++ "Gi total, " ++ u ++ "Gi used, " ++ f ++ "Gi free") =
      if 100 * U / T ≥ lookupQ th "Memory Used" then
        some ("⚠️ *" ++ "Memory Usage" ++ ":* " ++
          (t ++ "Gi total, " ++ u ++ "Gi used, " ++ f ++ "Gi free") ++ " (" ++
          formatFixed1 (100 * U / T) ++ "% used)\n")
      else
        some ("✅ *" ++ "Memory Usage" ++ ":* " ++
          (t ++ "Gi total, " ++ u ++ "Gi used, " ++ f ++ "Gi free") ++ " (" ++
          formatFixed1 (100 * U / T) ++ "% used)\n") := by
  have hdata : (t ++ "Gi total, " ++ u ++ "Gi used, " ++ f ++ "Gi free").data
      = (t.data ++ ['G', 'i']) ++ ' ' ::
        (['t', 'o', 't', 'a', 'l', ','] ++ ' ' ::
         ((u.data ++ ['G', 'i']) ++ ' ' ::
          (['u', 's', 'e', 'd', ','] ++ ' ' ::
           ((f.data ++ ['G', 'i']) ++ ' ' :: ['f', 'r', 'e', 'e'])))) := by
    simp [String.data_append]
  have hflds : fieldsL Char.isWhitespace
      (t ++ "Gi total, " ++ u ++ "Gi used, " ++ f ++ "Gi free").data
      = (t.data ++ ['G', 'i']) :: ['t', 'o', 't', 'a', 'l', ','] ::
        (u.data ++ ['G', 'i']) :: ['u', 's', 'e', 'd', ','] ::
        (f.data ++ ['G', 'i']) :: [['f', 'r', 'e', 'e']] := by
    rw [hdata,
        fieldsL_append _ ' ' rfl _ (good_append_ne_nil ht _) (good_append_noWS ht (by decide)),
        fieldsL_append _ ' ' rfl _ (by decide) (by decide),
        fieldsL_append _ ' ' rfl _ (good_append_ne_nil hu _) (good_append_noWS hu (by decide)),
        fieldsL_append _ ' ' rfl _ (by decide) (by decide),
        fieldsL_append _ ' ' rfl _ (good_append_ne_nil hf _) (good_append_noWS hf (by decide))]
    rfl
  have hne1 : ¬("Memory Usage" : String) = "CPU Usage" := by decide
  have hpc : U / T * 100 = 100 * U / T := by ring
  simp only [classify, if_neg hne1, eq_self_iff_true, if_true, hflds]
  rw [trimSuffixL_append, trimSuffixL_append, parseFloatD, parseFloatD, hT, hU,
    Option.getD_some, Option.getD_some, hpc]

/-- Closed instance of C7: 9Gi used of 10Gi total is 90.0% and warns
against the default 80.0 threshold. -/
theorem memory_percent_and_warn_iff_witness :
    classify NewDefaultConfig.Thresholds "Memory Usage"
        ("10" ++ "Gi total, " ++ "9" ++ "Gi used, " ++ "1" ++ "Gi free") =
      if 100 * (9 : ℚ) / 10 ≥ lookupQ NewDefaultConfig.Thresholds "Memory Used" then
        some ("⚠️ *" ++ "Memory Usage" ++ ":* " ++
          ("10" ++ "Gi total, " ++ "9" ++ "Gi used, " ++ "1" ++ "Gi free") ++ " (" ++
          formatFixed1 (100 * (9 : ℚ) / 10) ++ "% used)\n")
      else
        some ("✅ *" ++ "Memory Usage" ++ ":* " ++
          ("10" ++ "Gi total, " ++ "9" ++ "Gi used, " ++ "1" ++ "Gi free") ++ " (" ++
          formatFixed1 (100 * (9 : ℚ) / 10) ++ "% used)\n") :=
  memory_percent_and_warn_iff NewDefaultConfig.Thresholds "10" "9" "1" 10 9
    (by decide) (by decide) (by decide) (by decide) (by decide) (by decide)

end HealthCheck
